import Mathlib

/-!
Verification of the stripe-to-sheet webhook relay (src/server.js).

The spreadsheet store is modelled as a list of rows, each row a list of
string cells; a missing cell reads as the empty string, matching the
JavaScript pattern (row[j] && String(row[j]).trim()) || ''.  Store writes
are reified as a SheetWrite value (the bounded update or append the code
issues) together with a count of range reads, so that no-op and
row-index claims can be stated exactly.
-/

namespace StripeToSheet

/-- Result of the paid-status query: the JSON body { paid, status? }. -/
structure CheckResult where
  paid : Bool
  status : Option String
deriving DecidableEq, Repr

/-- A write issued against the sheet: update of B{i}:C{i}, update of B{i}
(1-based sheet row index i), or an appended row. -/
inductive SheetWrite where
  | updateBC (rowIndex : Nat) (status subId : String)
  | updateB (rowIndex : Nat) (status : String)
  | appendRow (row : List String)
deriving DecidableEq, Repr

/-- The store interactions a reconciler call performs: how many range reads
and which writes, in order. -/
structure StoreEffect where
  reads : Nat
  writes : List SheetWrite
deriving DecidableEq, Repr

/-- Whitespace as trimmed by String.prototype.trim, restricted to the
characters that can occur in this domain. -/
def isSpaceChar (c : Char) : Bool :=
  c = ' ' ∨ c = '\t' ∨ c = '\n' ∨ c = '\r'

/-- Drop leading whitespace characters. -/
def dropLeading : List Char → List Char
  | [] => []
  | c :: cs => if isSpaceChar c then dropLeading cs else c :: cs

/-- Trim whitespace from both ends of a character list. -/
def trimChars (cs : List Char) : List Char :=
  (dropLeading (dropLeading cs).reverse).reverse

/-- JavaScript String.prototype.trim, structurally on the character list. -/
def jsTrim (s : String) : String :=
  String.mk (trimChars s.data)

/-- ASCII lowering of one character (the only case arising in this domain). -/
def lowerChar (c : Char) : Char :=
  if 'A' ≤ c ∧ c ≤ 'Z' then Char.ofNat (c.toNat + 32) else c

/-- JavaScript String.prototype.toLowerCase, structurally per character. -/
def jsToLower (s : String) : String :=
  String.mk (s.data.map lowerChar)

/-- Boolean prefix test on character lists. -/
def charsStartsWith : List Char → List Char → Bool
  | [], _ => true
  | _ :: _, [] => false
  | a :: as, b :: bs => a = b && charsStartsWith as bs

/-- Boolean infix (contiguous substring) test on character lists. -/
def charsContains (pat : List Char) : List Char → Bool
  | [] => charsStartsWith pat []
  | b :: bs => charsStartsWith pat (b :: bs) || charsContains pat bs

/-- JavaScript String.prototype.includes: pat occurs as a substring of s. -/
def jsIncludes (s pat : String) : Bool :=
  charsContains pat.toList s.toList

/-- Cell read in the JS style (row[j] && String(row[j]).trim()) || ''. -/
def colCell (row : List String) (j : Nat) : String :=
  jsTrim (row.getD j "")

/-- getDataRows: drop the first row when its first cell contains the marker
"email" case-insensitively (header heuristic); header detection applies
toLowerCase to the raw cell without trimming. -/
def getDataRows (rows : List (List String)) : List (List String) :=
  match rows with
  | [] => []
  | r0 :: rest =>
    if jsIncludes (jsToLower (r0.getD 0 "")) "email" then rest else r0 :: rest

/-- Index of the first data row whose trimmed, lower-cased first cell equals
the normalized email (the scan inside checkPaidUserEmail and upsertPaidUser). -/
def findEmailIdx (normalized : String) : List (List String) → Option Nat
  | [] => none
  | row :: rest =>
    if jsToLower (colCell row 0) = normalized then some 0
    else (findEmailIdx normalized rest).map (fun n => n + 1)

/-- Index of the first data row whose trimmed third cell equals the trimmed
subscription id (the scan inside updateStatusBySubscriptionId). -/
def findSubIdx (subId : String) : List (List String) → Option Nat
  | [] => none
  | row :: rest =>
    if colCell row 2 = subId then some 0
    else (findSubIdx subId rest).map (fun n => n + 1)

/-- The result checkPaidUserEmail builds from a matched row: an empty status
cell counts as active, paid is the case-insensitive comparison with active. -/
def rowCheckResult (row : List String) : CheckResult :=
  let status := colCell row 1
  let effectiveStatus := if status = "" then "active" else status
  ⟨jsToLower effectiveStatus = "active",
    if effectiveStatus = "" then none else some effectiveStatus⟩

/-- The row loop of checkPaidUserEmail: the first row whose column A matches
the normalized email decides the result. -/
def checkRows (normalized : String) : List (List String) → CheckResult
  | [] => ⟨false, none⟩
  | row :: rest =>
    if jsToLower (colCell row 0) = normalized then rowCheckResult row
    else checkRows normalized rest

/-- checkPaidUserEmail over an already-fetched row set: normalize the email,
short-circuit when empty, otherwise scan the header-filtered rows. -/
def checkPaidUserEmail (email : String) (rows : List (List String)) : CheckResult :=
  let normalized := jsToLower (jsTrim email)
  if normalized = "" then ⟨false, none⟩
  else checkRows normalized (getDataRows rows)

/-- checkPaidUserEmail with a fallible store read: the sheets client or the
values.get call may throw, which propagates to the caller. -/
def checkPaidUserEmailExc (email : String)
    (fetch : Except String (List (List String))) : Except String CheckResult :=
  let normalized := jsToLower (jsTrim email)
  if normalized = "" then Except.ok ⟨false, none⟩
  else
    match fetch with
    | Except.error e => Except.error e
    | Except.ok values => Except.ok (checkRows normalized (getDataRows values))

/-- The GET /check handler: trim the query parameter, short-circuit on empty,
call checkPaidUserEmail inside try/catch; on throw the response stays the
initial { paid: false }, and the status field is set only when truthy. -/
def checkHandler (emailParam : Option String)
    (fetch : Except String (List (List String))) : CheckResult :=
  let email :=
    match emailParam with
    | some e => if e = "" then "" else jsTrim e
    | none => ""
  if email = "" then ⟨false, none⟩
  else
    match checkPaidUserEmailExc email fetch with
    | Except.ok r =>
      ⟨r.paid, match r.status with
               | some s => if s = "" then none else some s
               | none => none⟩
    | Except.error _ => ⟨false, none⟩

/-- Write cell j of a row, padding shorter rows with empty cells, as the
sheet does when a bounded update lands past the stored width. -/
def setCell : List String → Nat → String → List String
  | [], 0, v => [v]
  | [], n + 1, v => "" :: setCell [] n v
  | _ :: rest, 0, v => v :: rest
  | c :: rest, n + 1, v => c :: setCell rest n v

/-- Apply a function to the row at a 0-based index, leaving others alone. -/
def modifyRow : List (List String) → Nat → (List String → List String) → List (List String)
  | [], _, _ => []
  | r :: rest, 0, f => f r :: rest
  | r :: rest, n + 1, f => r :: modifyRow rest n f

/-- Overwrite cells B and C (indices 1 and 2) of one row. -/
def updBC (status subId : String) (r : List String) : List String :=
  setCell (setCell r 1 status) 2 subId

/-- Overwrite cell B (index 1) of one row. -/
def updB (status : String) (r : List String) : List String :=
  setCell r 1 status

/-- Row-store semantics of one write: updateBC overwrites cells B,C of the
1-based sheet row, updateB overwrites cell B, append inserts at the end. -/
def applyWrite (rows : List (List String)) (w : SheetWrite) : List (List String) :=
  match w with
  | SheetWrite.updateBC rowIndex status subId =>
    modifyRow rows (rowIndex - 1) (updBC status subId)
  | SheetWrite.updateB rowIndex status =>
    modifyRow rows (rowIndex - 1) (updB status)
  | SheetWrite.appendRow r => rows ++ [r]

/-- The store interactions of upsertPaidUser: one range read, then either an
update of B:C at headerOffset + i + 1 for the first matching data row i, or
an append of [email, status, subId]. -/
def upsertEffect (rows : List (List String))
    (email status subscriptionId : String) : StoreEffect :=
  let dataRows := getDataRows rows
  let headerOffset := rows.length - dataRows.length
  let normalized := jsToLower (jsTrim email)
  let subId := if subscriptionId = "" then "" else jsTrim subscriptionId
  match findEmailIdx normalized dataRows with
  | some i => ⟨1, [SheetWrite.updateBC (headerOffset + i + 1) status subId]⟩
  | none => ⟨1, [SheetWrite.appendRow [email, status, subId]]⟩

/-- upsertPaidUser as a state transformer on the row set. -/
def upsertPaidUser (rows : List (List String))
    (email status subscriptionId : String) : List (List String) :=
  (upsertEffect rows email status subscriptionId).writes.foldl applyWrite rows

/-- The store interactions of updateStatusBySubscriptionId: early return with
no read when the subscription id or status is falsy; otherwise one read, then
an update of B at the matching row or nothing. -/
def updateStatusEffect (rows : List (List String))
    (subscriptionId status : String) : StoreEffect :=
  if subscriptionId = "" ∨ status = "" then ⟨0, []⟩
  else
    let dataRows := getDataRows rows
    let headerOffset := rows.length - dataRows.length
    let subId := jsTrim subscriptionId
    match findSubIdx subId dataRows with
    | some i => ⟨1, [SheetWrite.updateB (headerOffset + i + 1) status]⟩
    | none => ⟨1, []⟩

/-- updateStatusBySubscriptionId as a state transformer on the row set. -/
def updateStatusBySubscriptionId (rows : List (List String))
    (subscriptionId status : String) : List (List String) :=
  (updateStatusEffect rows subscriptionId status).writes.foldl applyWrite rows

/-- The webhook coercion (subscription.status && String(...)) || '' of a
possibly-missing status field. -/
def subscriptionEventStatus : Option String → String
  | none => ""
  | some s => s

/-- One checkout custom field: key, text value and dropdown value are each
possibly missing; a present empty string is falsy in the JS conditions, so
it behaves like a missing value. -/
structure CustomField where
  key : Option String
  text : Option String
  dropdown : Option String
deriving DecidableEq, Repr

/-- The parts of a checkout.session.completed session object that
getGoogleEmailFromSession reads, with nested optional chains flattened. -/
structure Session where
  custom_fields : Option (List CustomField)
  customer_email : Option String
  customer_details_email : Option String
  customer_details_customer_email : Option String
deriving DecidableEq, Repr

/-- The first loop of getGoogleEmailFromSession: per field, a truthy text
value whose trim is non-empty wins, then a truthy dropdown value, both
gated on the configured key matching (vacuous when no key is configured). -/
def scanFieldsBoth (cfg : String) : List CustomField → Option String
  | [] => none
  | f :: rest =>
    let key := jsTrim (f.key.getD "")
    let matchKey := cfg = "" ∨ key = cfg
    let tv := f.text.getD ""
    if tv ≠ "" ∧ matchKey ∧ jsTrim tv ≠ "" then some (jsTrim tv)
    else
      let dv := f.dropdown.getD ""
      if dv ≠ "" ∧ matchKey ∧ jsTrim dv ≠ "" then some (jsTrim dv)
      else scanFieldsBoth cfg rest

/-- The second loop of getGoogleEmailFromSession, reached only when no key is
configured: first truthy text value with a non-empty trim, ignoring keys. -/
def scanFieldsText : List CustomField → Option String
  | [] => none
  | f :: rest =>
    let tv := f.text.getD ""
    if tv ≠ "" ∧ jsTrim tv ≠ "" then some (jsTrim tv)
    else scanFieldsText rest

/-- The final fallback chain: customer_email ?? customer_details?.email ??
customer_details?.customer_email ?? null, with nullish (not falsy)
propagation, so a present empty string is returned as-is. -/
def sessionFallbackEmail (s : Session) : Option String :=
  match s.customer_email with
  | some v => some v
  | none =>
    match s.customer_details_email with
    | some v => some v
    | none => s.customer_details_customer_email

/-- getGoogleEmailFromSession: custom-field loops when custom_fields is a
non-empty array, otherwise (or when they yield nothing) the fallback chain. -/
def getGoogleEmailFromSession (cfg : String) (s : Session) : Option String :=
  let fromFields : Option String :=
    match s.custom_fields with
    | some fields =>
      if fields.length > 0 then
        match scanFieldsBoth cfg fields with
        | some v => some v
        | none => if cfg = "" then scanFieldsText fields else none
      else none
    | none => none
  match fromFields with
  | some v => some v
  | none => sessionFallbackEmail s

/-- Stated from the claim for C5: the first custom field of kind text with a
non-empty trimmed value, else the fallback chain. -/
def firstTextCandidate : List CustomField → Option String
  | [] => none
  | f :: rest =>
    let tv := f.text.getD ""
    if jsTrim tv ≠ "" then some (jsTrim tv) else firstTextCandidate rest

/-- Stated from the claim for C5: email resolution as the claim describes it
when no custom-field key is configured. -/
def emailResolutionClaimC5 (s : Session) : Option String :=
  match firstTextCandidate (s.custom_fields.getD []) with
  | some v => some v
  | none => sessionFallbackEmail s

/-- Stated from the amended claim for C5: per field, the trimmed text value
wins if non-empty, else the trimmed dropdown value if truthy and non-empty;
only when no field yields a candidate does the fallback chain apply. -/
def firstFieldCandidate : List CustomField → Option String
  | [] => none
  | f :: rest =>
    let tv := f.text.getD ""
    if jsTrim tv ≠ "" then some (jsTrim tv)
    else
      let dv := f.dropdown.getD ""
      if dv ≠ "" ∧ jsTrim dv ≠ "" then some (jsTrim dv)
      else firstFieldCandidate rest

/-- Stated from the amended claim for C5: resolution order with no configured
key is first field candidate (text before dropdown within a field), then the
fallback chain. -/
def emailResolutionAmendedC5 (s : Session) : Option String :=
  match firstFieldCandidate (s.custom_fields.getD []) with
  | some v => some v
  | none => sessionFallbackEmail s

/-! Lemmas about single-cell writes and row modification. -/

theorem setCell_getD_self (v : String) : ∀ (j : Nat) (r : List String),
    (setCell r j v).getD j "" = v := by
  intro j
  induction j with
  | zero => intro r; cases r <;> rfl
  | succ k ih =>
    intro r
    cases r with
    | nil => simpa [setCell] using ih []
    | cons c rest => simpa [setCell] using ih rest

theorem setCell_getD_ne (v : String) : ∀ (j k : Nat) (r : List String), k ≠ j →
    (setCell r j v).getD k "" = r.getD k "" := by
  intro j
  induction j with
  | zero =>
    intro k r hk
    cases r with
    | nil =>
      cases k with
      | zero => exact absurd rfl hk
      | succ m => simp [setCell]
    | cons c rest =>
      cases k with
      | zero => exact absurd rfl hk
      | succ m => simp [setCell]
  | succ j ih =>
    intro k r hk
    cases r with
    | nil =>
      cases k with
      | zero => simp [setCell]
      | succ m =>
        have : m ≠ j := by omega
        simpa [setCell] using ih m [] this
    | cons c rest =>
      cases k with
      | zero => simp [setCell]
      | succ m =>
        have : m ≠ j := by omega
        simpa [setCell] using ih m rest this

theorem setCell_setCell_same (v w : String) : ∀ (j : Nat) (r : List String),
    setCell (setCell r j v) j w = setCell r j w := by
  intro j
  induction j with
  | zero => intro r; cases r <;> rfl
  | succ k ih =>
    intro r
    cases r with
    | nil => simpa [setCell] using ih []
    | cons c rest => simpa [setCell] using ih rest

theorem setCell_comm (v w : String) : ∀ (j k : Nat) (r : List String), j ≠ k →
    setCell (setCell r j v) k w = setCell (setCell r k w) j v := by
  intro j
  induction j with
  | zero =>
    intro k r hk
    cases k with
    | zero => exact absurd rfl hk
    | succ m => cases r <;> rfl
  | succ j ih =>
    intro k r hk
    cases k with
    | zero => cases r <;> rfl
    | succ m =>
      have : j ≠ m := by omega
      cases r with
      | nil => simpa [setCell] using ih m [] this
      | cons c rest => simpa [setCell] using ih m rest this

theorem updBC_getD_zero (s c : String) (r : List String) :
    (updBC s c r).getD 0 "" = r.getD 0 "" := by
  unfold updBC
  rw [setCell_getD_ne c 2 0 _ (by omega), setCell_getD_ne s 1 0 _ (by omega)]

theorem updB_getD_zero (s : String) (r : List String) :
    (updB s r).getD 0 "" = r.getD 0 "" := by
  unfold updB
  rw [setCell_getD_ne s 1 0 _ (by omega)]

theorem updBC_idem (s c : String) (r : List String) :
    updBC s c (updBC s c r) = updBC s c r := by
  show setCell (setCell (setCell (setCell r 1 s) 2 c) 1 s) 2 c
      = setCell (setCell r 1 s) 2 c
  rw [setCell_comm c s 2 1 (setCell r 1 s) (by omega),
    setCell_setCell_same s s 1, setCell_setCell_same c c 2]

theorem updBC_fixed (e s c : String) : updBC s c [e, s, c] = [e, s, c] := rfl

theorem modifyRow_length : ∀ (l : List (List String)) (n : Nat)
    (f : List String → List String), (modifyRow l n f).length = l.length := by
  intro l
  induction l with
  | nil => intro n f; rfl
  | cons r rest ih =>
    intro n f
    cases n with
    | zero => rfl
    | succ m => simpa [modifyRow] using ih m f

theorem modifyRow_getD_ne : ∀ (l : List (List String)) (n k : Nat)
    (f : List String → List String), k ≠ n →
    (modifyRow l n f).getD k [] = l.getD k [] := by
  intro l
  induction l with
  | nil => intro n k f _; rfl
  | cons r rest ih =>
    intro n k f hk
    cases n with
    | zero =>
      cases k with
      | zero => exact absurd rfl hk
      | succ m => simp [modifyRow]
    | succ m =>
      cases k with
      | zero => simp [modifyRow]
      | succ p =>
        have : p ≠ m := by omega
        simpa [modifyRow] using ih m p f this

theorem modifyRow_getD_self : ∀ (l : List (List String)) (n : Nat)
    (f : List String → List String), n < l.length →
    (modifyRow l n f).getD n [] = f (l.getD n []) := by
  intro l
  induction l with
  | nil => intro n f h; simp at h
  | cons r rest ih =>
    intro n f h
    cases n with
    | zero => rfl
    | succ m =>
      have : m < rest.length := by simpa using h
      simpa [modifyRow] using ih m f this

theorem modifyRow_modifyRow : ∀ (l : List (List String)) (n : Nat)
    (f g : List String → List String),
    modifyRow (modifyRow l n f) n g = modifyRow l n (fun r => g (f r)) := by
  intro l
  induction l with
  | nil => intro n f g; rfl
  | cons r rest ih =>
    intro n f g
    cases n with
    | zero => rfl
    | succ m => simpa [modifyRow] using ih m f g

theorem modifyRow_congr : ∀ (l : List (List String)) (n : Nat)
    (f g : List String → List String), (∀ r, f r = g r) →
    modifyRow l n f = modifyRow l n g := by
  intro l
  induction l with
  | nil => intro n f g _; rfl
  | cons r rest ih =>
    intro n f g h
    cases n with
    | zero => simp [modifyRow, h r]
    | succ m => simpa [modifyRow] using ih m f g h

theorem modifyRow_append_right : ∀ (l : List (List String)) (x : List String)
    (f : List String → List String),
    modifyRow (l ++ [x]) l.length f = l ++ [f x] := by
  intro l
  induction l with
  | nil => intro x f; rfl
  | cons r rest ih =>
    intro x f
    simpa [modifyRow] using ih x f

/-! Lemmas about header filtering and the row scans. -/

theorem bool_eq_false {b : Bool} (h : ¬(b = true)) : b = false := by
  cases b with
  | false => rfl
  | true => exact absurd rfl h

theorem getDataRows_cons_header (r0 : List String) (rest : List (List String))
    (h : jsIncludes (jsToLower (r0.getD 0 "")) "email" = true) :
    getDataRows (r0 :: rest) = rest := by
  show (if jsIncludes (jsToLower (r0.getD 0 "")) "email" = true
        then rest else r0 :: rest) = rest
  rw [if_pos h]

theorem getDataRows_cons_nonheader (r0 : List String) (rest : List (List String))
    (h : jsIncludes (jsToLower (r0.getD 0 "")) "email" = false) :
    getDataRows (r0 :: rest) = r0 :: rest := by
  show (if jsIncludes (jsToLower (r0.getD 0 "")) "email" = true
        then rest else r0 :: rest) = r0 :: rest
  have hne : ¬(jsIncludes (jsToLower (r0.getD 0 "")) "email" = true) := by
    intro hc
    rw [h] at hc
    cases hc
  rw [if_neg hne]

theorem getDataRows_length_le (rows : List (List String)) :
    (getDataRows rows).length ≤ rows.length := by
  cases rows with
  | nil => exact Nat.le_refl 0
  | cons r0 rest =>
    by_cases h : jsIncludes (jsToLower (r0.getD 0 "")) "email" = true
    · rw [getDataRows_cons_header r0 rest h]
      simp
    · rw [getDataRows_cons_nonheader r0 rest (bool_eq_false h)]

theorem getDataRows_append (r0 : List String) (rest l2 : List (List String)) :
    getDataRows ((r0 :: rest) ++ l2) = getDataRows (r0 :: rest) ++ l2 := by
  by_cases h : jsIncludes (jsToLower (r0.getD 0 "")) "email" = true
  · rw [List.cons_append, getDataRows_cons_header r0 (rest ++ l2) h,
      getDataRows_cons_header r0 rest h]
  · have h2 : jsIncludes (jsToLower (r0.getD 0 "")) "email" = false := by
      simpa using h
    rw [List.cons_append, getDataRows_cons_nonheader r0 (rest ++ l2) h2,
      getDataRows_cons_nonheader r0 rest h2, List.cons_append]

theorem getDataRows_modifyRow (rows : List (List String)) (i : Nat)
    (f : List String → List String) (hf : ∀ r, (f r).getD 0 "" = r.getD 0 "") :
    getDataRows (modifyRow rows (rows.length - (getDataRows rows).length + i) f)
      = modifyRow (getDataRows rows) i f := by
  cases rows with
  | nil => rfl
  | cons r0 rest =>
    by_cases h : jsIncludes (jsToLower (r0.getD 0 "")) "email" = true
    · rw [getDataRows_cons_header r0 rest h]
      have hidx : (r0 :: rest).length - rest.length + i = i + 1 := by
        simp only [List.length_cons]
        omega
      rw [hidx]
      show getDataRows (r0 :: modifyRow rest i f) = modifyRow rest i f
      exact getDataRows_cons_header _ _ h
    · have h2 : jsIncludes (jsToLower (r0.getD 0 "")) "email" = false := by
        simpa using h
      rw [getDataRows_cons_nonheader r0 rest h2]
      have hidx : (r0 :: rest).length - (r0 :: rest).length + i = i := by omega
      rw [hidx]
      cases i with
      | zero =>
        show getDataRows (f r0 :: rest) = f r0 :: rest
        apply getDataRows_cons_nonheader
        rw [hf r0]
        exact h2
      | succ m =>
        show getDataRows (r0 :: modifyRow rest m f) = r0 :: modifyRow rest m f
        exact getDataRows_cons_nonheader _ _ h2

theorem findEmailIdx_lt (n : String) : ∀ (l : List (List String)) (i : Nat),
    findEmailIdx n l = some i → i < l.length := by
  intro l
  induction l with
  | nil => intro i h; simp [findEmailIdx] at h
  | cons r rest ih =>
    intro i h
    unfold findEmailIdx at h
    split at h
    · cases h
      simp
    · obtain ⟨j, hj, rfl⟩ := Option.map_eq_some'.mp h
      have := ih j hj
      simp only [List.length_cons]
      omega

theorem findEmailIdx_modifyRow (n : String) (f : List String → List String)
    (hf : ∀ r, (f r).getD 0 "" = r.getD 0 "") :
    ∀ (l : List (List String)) (j : Nat),
    findEmailIdx n (modifyRow l j f) = findEmailIdx n l := by
  intro l
  induction l with
  | nil => intro j; rfl
  | cons r rest ih =>
    intro j
    cases j with
    | zero =>
      show findEmailIdx n (f r :: rest) = findEmailIdx n (r :: rest)
      unfold findEmailIdx
      rw [show colCell (f r) 0 = colCell r 0 from by unfold colCell; rw [hf r]]
    | succ m =>
      show findEmailIdx n (r :: modifyRow rest m f) = findEmailIdx n (r :: rest)
      unfold findEmailIdx
      rw [ih m]

theorem checkRows_append_of_none (n : String) (l2 : List (List String)) :
    ∀ (l : List (List String)), findEmailIdx n l = none →
    checkRows n (l ++ l2) = checkRows n l2 := by
  intro l
  induction l with
  | nil => intro _; rfl
  | cons r rest ih =>
    intro h
    unfold findEmailIdx at h
    split at h
    · simp at h
    · rename_i hc
      have hrest : findEmailIdx n rest = none := Option.map_eq_none'.mp h
      show (if jsToLower (colCell r 0) = n then rowCheckResult r
            else checkRows n (rest ++ l2)) = checkRows n l2
      rw [if_neg hc]
      exact ih hrest

theorem checkRows_of_findEmailIdx_some (n : String) :
    ∀ (l : List (List String)) (i : Nat), findEmailIdx n l = some i →
    checkRows n l = rowCheckResult (l.getD i []) := by
  intro l
  induction l with
  | nil => intro i h; simp [findEmailIdx] at h
  | cons r rest ih =>
    intro i h
    unfold findEmailIdx at h
    split at h
    · rename_i hc
      cases h
      unfold checkRows
      rw [if_pos hc]
      rfl
    · rename_i hc
      obtain ⟨j, hj, rfl⟩ := Option.map_eq_some'.mp h
      unfold checkRows
      rw [if_neg hc]
      simpa using ih j hj

theorem findEmailIdx_append_singleton (n : String) (row : List String)
    (hr : jsToLower (colCell row 0) = n) :
    ∀ (l : List (List String)), findEmailIdx n l = none →
    findEmailIdx n (l ++ [row]) = some l.length := by
  intro l
  induction l with
  | nil => intro _; simp [findEmailIdx, hr]
  | cons r rest ih =>
    intro h
    unfold findEmailIdx at h
    split at h
    · simp at h
    · rename_i hc
      have hrest : findEmailIdx n rest = none := Option.map_eq_none'.mp h
      show findEmailIdx n (r :: (rest ++ [row])) = some (r :: rest).length
      unfold findEmailIdx
      rw [if_neg hc, ih hrest]
      simp

theorem findSubIdx_eq_none (s : String) : ∀ (l : List (List String)),
    (∀ r ∈ l, colCell r 2 ≠ s) → findSubIdx s l = none := by
  intro l
  induction l with
  | nil => intro _; rfl
  | cons r rest ih =>
    intro h
    unfold findSubIdx
    rw [if_neg (h r (by simp))]
    rw [ih (fun q hq => h q (by simp [hq]))]
    rfl

/-! Unfolding lemmas for the reconciler operations. -/

theorem upsertPaidUser_found (rows : List (List String))
    (email status subscriptionId : String) (i : Nat)
    (h : findEmailIdx (jsToLower (jsTrim email)) (getDataRows rows) = some i) :
    upsertPaidUser rows email status subscriptionId =
      modifyRow rows (rows.length - (getDataRows rows).length + i)
        (updBC status (if subscriptionId = "" then "" else jsTrim subscriptionId)) := by
  simp only [upsertPaidUser, upsertEffect, h]
  simp [applyWrite]

theorem upsertPaidUser_notfound (rows : List (List String))
    (email status subscriptionId : String)
    (h : findEmailIdx (jsToLower (jsTrim email)) (getDataRows rows) = none) :
    upsertPaidUser rows email status subscriptionId =
      rows ++ [[email, status,
        if subscriptionId = "" then "" else jsTrim subscriptionId]] := by
  simp only [upsertPaidUser, upsertEffect, h]
  simp [applyWrite]

theorem checkPaidUserEmail_of_ne (email : String) (rows : List (List String))
    (h : jsToLower (jsTrim email) ≠ "") :
    checkPaidUserEmail email rows
      = checkRows (jsToLower (jsTrim email)) (getDataRows rows) := by
  simp [checkPaidUserEmail, h]

/-! Support lemmas about activated rows. -/

theorem updBC_getD_one (s c : String) (r : List String) :
    (updBC s c r).getD 1 "" = s := by
  unfold updBC
  rw [setCell_getD_ne c 2 1 _ (by omega), setCell_getD_self]

theorem rowCheckResult_status_active (r : List String)
    (h : colCell r 1 = "active") : rowCheckResult r = ⟨true, some "active"⟩ := by
  unfold rowCheckResult
  rw [h]
  rfl

theorem rowCheckResult_updBC_active (c : String) (r : List String) :
    rowCheckResult (updBC "active" c r) = ⟨true, some "active"⟩ := by
  apply rowCheckResult_status_active
  unfold colCell
  rw [updBC_getD_one]
  decide

theorem getDataRows_singleton (e s c : String)
    (h : jsIncludes (jsToLower e) "email" = false) :
    getDataRows [[e, s, c]] = [[e, s, c]] :=
  getDataRows_cons_nonheader [e, s, c] [] h

theorem checkRows_singleton_active (E c : String) :
    checkRows (jsToLower (jsTrim E)) [[E, "active", c]]
      = ⟨true, some "active"⟩ := by
  unfold checkRows
  rw [if_pos (show jsToLower (colCell [E, "active", c] 0)
    = jsToLower (jsTrim E) from rfl)]
  rfl

/-- C1 (amended): for every starting row set, valid email E (non-empty after
trim and lower-case) and subscription id S, upsertPaidUser with status active
followed immediately by checkPaidUserEmail on E returns paid true with status
active — provided that, when the starting row set is empty, the lower-cased
email does not contain the substring "email"; in that excluded case the
appended row becomes the first row and is discarded as a header. -/
theorem activate_then_check_active (rows : List (List String)) (E S : String)
    (hvalid : jsToLower (jsTrim E) ≠ "")
    (hheader : rows = [] → jsIncludes (jsToLower E) "email" = false) :
    checkPaidUserEmail E (upsertPaidUser rows E "active" S)
      = ⟨true, some "active"⟩ := by
  cases hfind : findEmailIdx (jsToLower (jsTrim E)) (getDataRows rows) with
  | some i =>
    rw [upsertPaidUser_found rows E "active" S i hfind]
    rw [checkPaidUserEmail_of_ne _ _ hvalid]
    rw [getDataRows_modifyRow rows i _ (fun r => updBC_getD_zero _ _ r)]
    rw [checkRows_of_findEmailIdx_some _ _ i (by
      rw [findEmailIdx_modifyRow _ _ (fun r => updBC_getD_zero _ _ r) _ i]
      exact hfind)]
    rw [modifyRow_getD_self _ i _ (findEmailIdx_lt _ _ i hfind)]
    exact rowCheckResult_updBC_active _ _
  | none =>
    rw [upsertPaidUser_notfound rows E "active" S hfind]
    rw [checkPaidUserEmail_of_ne _ _ hvalid]
    cases rows with
    | nil =>
      rw [List.nil_append]
      rw [getDataRows_singleton E "active" _ (hheader rfl)]
      exact checkRows_singleton_active E _
    | cons r0 rest =>
      rw [getDataRows_append r0 rest _]
      rw [checkRows_append_of_none _ _ _ hfind]
      exact checkRows_singleton_active E _

/-- C1 as literally stated fails: with an empty store, activating the valid
email "myemail@gmail.com" and then querying it yields paid false, because the
appended row is mis-detected as a header row. -/
theorem activate_then_check_cex :
    checkPaidUserEmail "myemail@gmail.com"
        (upsertPaidUser [] "myemail@gmail.com" "active" "sub_1")
      = ⟨false, none⟩ := by decide

/-- Witness for C1 at a concrete input. -/
theorem activate_then_check_witness :
    checkPaidUserEmail "a@b.com"
        (upsertPaidUser [["x@y.com", "past_due", "s0"]] "a@b.com" "active" "sub_1")
      = ⟨true, some "active"⟩ :=
  activate_then_check_active [["x@y.com", "past_due", "s0"]] "a@b.com" "sub_1"
    (by decide) (by decide)

/-- C2 (amended): upsertPaidUser is idempotent — applying it twice with the
same email, status and subscription id gives the same row set as applying it
once — provided that, when the starting row set is empty, the lower-cased
email does not contain the substring "email"; in that excluded case the first
application appends a row that the second application mis-detects as a header
and appends again. -/
theorem upsert_idempotent (rows : List (List String))
    (email status subscriptionId : String)
    (hheader : rows = [] → jsIncludes (jsToLower email) "email" = false) :
    upsertPaidUser (upsertPaidUser rows email status subscriptionId)
        email status subscriptionId
      = upsertPaidUser rows email status subscriptionId := by
  cases hfind : findEmailIdx (jsToLower (jsTrim email)) (getDataRows rows) with
  | some i =>
    have hcell0 : ∀ r,
        (updBC status (if subscriptionId = "" then "" else jsTrim subscriptionId)
          r).getD 0 "" = r.getD 0 "" :=
      fun r => updBC_getD_zero _ _ r
    rw [upsertPaidUser_found rows email status subscriptionId i hfind]
    have hgd := getDataRows_modifyRow rows i
      (updBC status (if subscriptionId = "" then "" else jsTrim subscriptionId))
      hcell0
    have hfind2 : findEmailIdx (jsToLower (jsTrim email))
        (getDataRows (modifyRow rows
          (rows.length - (getDataRows rows).length + i)
          (updBC status
            (if subscriptionId = "" then "" else jsTrim subscriptionId))))
        = some i := by
      rw [hgd, findEmailIdx_modifyRow _ _ hcell0 _ i]
      exact hfind
    rw [upsertPaidUser_found _ email status subscriptionId i hfind2]
    rw [hgd, modifyRow_length, modifyRow_length]
    rw [modifyRow_modifyRow]
    exact modifyRow_congr _ _ _ _ (fun r => updBC_idem _ _ r)
  | none =>
    rw [upsertPaidUser_notfound rows email status subscriptionId hfind]
    cases rows with
    | nil =>
      rw [List.nil_append]
      have hfind2 : findEmailIdx (jsToLower (jsTrim email))
          (getDataRows [[email, status,
            if subscriptionId = "" then "" else jsTrim subscriptionId]])
          = some 0 := by
        rw [getDataRows_singleton email status _ (hheader rfl)]
        unfold findEmailIdx
        rw [if_pos (show jsToLower (colCell
          [email, status,
            if subscriptionId = "" then "" else jsTrim subscriptionId] 0)
          = jsToLower (jsTrim email) from rfl)]
      rw [upsertPaidUser_found _ email status subscriptionId 0 hfind2]
      rw [getDataRows_singleton email status _ (hheader rfl)]
      show [updBC status
          (if subscriptionId = "" then "" else jsTrim subscriptionId)
          [email, status,
            if subscriptionId = "" then "" else jsTrim subscriptionId]]
        = [[email, status,
            if subscriptionId = "" then "" else jsTrim subscriptionId]]
      rw [updBC_fixed]
    | cons r0 rest =>
      have hfind2 : findEmailIdx (jsToLower (jsTrim email))
          (getDataRows ((r0 :: rest) ++ [[email, status,
            if subscriptionId = "" then "" else jsTrim subscriptionId]]))
          = some (getDataRows (r0 :: rest)).length := by
        rw [getDataRows_append r0 rest _]
        exact findEmailIdx_append_singleton (jsToLower (jsTrim email))
          [email, status, if subscriptionId = "" then "" else jsTrim subscriptionId]
          rfl _ hfind
      rw [upsertPaidUser_found _ email status subscriptionId _ hfind2]
      rw [getDataRows_append r0 rest _]
      have hidx : ((r0 :: rest) ++ [[email, status,
            if subscriptionId = "" then "" else jsTrim subscriptionId]]).length
          - (getDataRows (r0 :: rest) ++ [[email, status,
            if subscriptionId = "" then "" else jsTrim subscriptionId]]).length
          + (getDataRows (r0 :: rest)).length
          = (r0 :: rest).length := by
        have hle := getDataRows_length_le (r0 :: rest)
        simp only [List.length_append, List.length_singleton]
        omega
      rw [hidx, modifyRow_append_right, updBC_fixed]

/-- C2 as literally stated fails: with an empty store and the valid email
"myemail@gmail.com", applying upsertPaidUser twice appends two identical rows
(the second application discards the first row as a header), while applying
it once appends one row. -/
theorem upsert_idempotent_cex :
    upsertPaidUser (upsertPaidUser [] "myemail@gmail.com" "active" "sub_1")
        "myemail@gmail.com" "active" "sub_1"
      ≠ upsertPaidUser [] "myemail@gmail.com" "active" "sub_1" := by decide

/-- Witness for C2 at a concrete input. -/
theorem upsert_idempotent_witness :
    upsertPaidUser (upsertPaidUser [["c@d.com", "canceled", "s7"]]
        "a@b.com" "active" "s1") "a@b.com" "active" "s1"
      = upsertPaidUser [["c@d.com", "canceled", "s7"]] "a@b.com" "active" "s1" :=
  upsert_idempotent [["c@d.com", "canceled", "s7"]] "a@b.com" "active" "s1"
    (by decide)

theorem rowCheckResult_status_empty (r : List String)
    (h : colCell r 1 = "") : rowCheckResult r = ⟨true, some "active"⟩ := by
  unfold rowCheckResult
  rw [h]
  rfl

/-- C3: for a non-empty status, when no trimmed subscription-id cell of a data row
column equals the trimmed target id, updateStatusBySubscriptionId issues no
write, creates no row and leaves the row set unchanged; not finding the id is
not an error. -/
theorem update_status_missing_sub_noop (rows : List (List String))
    (S status : String) (hst : status ≠ "")
    (hmatch : ∀ r ∈ getDataRows rows, colCell r 2 ≠ jsTrim S) :
    (updateStatusEffect rows S status).writes = []
      ∧ updateStatusBySubscriptionId rows S status = rows := by
  by_cases hS : S = ""
  · constructor
    · simp [updateStatusEffect, hS]
    · simp [updateStatusBySubscriptionId, updateStatusEffect, hS]
  · have hfind : findSubIdx (jsTrim S) (getDataRows rows) = none :=
      findSubIdx_eq_none _ _ hmatch
    constructor
    · simp [updateStatusEffect, hS, hst, hfind]
    · simp [updateStatusBySubscriptionId, updateStatusEffect, hS, hst, hfind]

/-- Witness for C3 at a concrete input. -/
theorem update_status_missing_sub_noop_witness :
    (updateStatusEffect [["a@b.com", "active", "s1"]] "s2" "canceled").writes = []
      ∧ updateStatusBySubscriptionId [["a@b.com", "active", "s1"]] "s2" "canceled"
        = [["a@b.com", "active", "s1"]] :=
  update_status_missing_sub_noop [["a@b.com", "active", "s1"]] "s2" "canceled"
    (by decide) (by decide)

/-- C4: when the queried email is valid and the first data row matching its
normalized form has an empty or missing status cell, checkPaidUserEmail
reports paid true with status active (legacy rows count as active). -/
theorem legacy_row_reports_active (rows : List (List String)) (email : String)
    (i : Nat) (hvalid : jsToLower (jsTrim email) ≠ "")
    (hfind : findEmailIdx (jsToLower (jsTrim email)) (getDataRows rows) = some i)
    (hstatus : colCell ((getDataRows rows).getD i []) 1 = "") :
    checkPaidUserEmail email rows = ⟨true, some "active"⟩ := by
  rw [checkPaidUserEmail_of_ne _ _ hvalid]
  rw [checkRows_of_findEmailIdx_some _ _ i hfind]
  exact rowCheckResult_status_empty _ hstatus

/-- Witness for C4 at a concrete input: a one-column legacy row. -/
theorem legacy_row_reports_active_witness :
    checkPaidUserEmail "legacy@x.com" [["legacy@x.com"]]
      = ⟨true, some "active"⟩ :=
  legacy_row_reports_active [["legacy@x.com"]] "legacy@x.com" 0
    (by decide) (by decide) (by decide)

/-- C7: for every email parameter, when the store read throws during the paid
lookup, the GET /check handler responds exactly { paid: false } with no status
field, and no error escapes to the caller. -/
theorem check_handler_store_failure (emailParam : Option String) (err : String) :
    checkHandler emailParam (Except.error err) = ⟨false, none⟩ := by
  unfold checkHandler checkPaidUserEmailExc
  cases emailParam with
  | none => rfl
  | some e =>
    by_cases he : e = ""
    · simp [he]
    · simp only [he, if_false]
      by_cases h2 : jsTrim e = ""
      · simp [h2]
      · simp only [h2, if_false]
        by_cases h3 : jsToLower (jsTrim (jsTrim e)) = ""
        · simp [h3]
        · simp [h3]

/-- C8: a stored, activated record that the query cannot see: activating
"myemail@gmail.com" against an empty store appends the row, but its first
cell contains "email", so getDataRows discards the lone row as a header and
checkPaidUserEmail returns paid false although the row is present. -/
theorem header_heuristic_swallows_first_row :
    upsertPaidUser [] "myemail@gmail.com" "active" "sub_1"
        = [["myemail@gmail.com", "active", "sub_1"]]
    ∧ jsIncludes (jsToLower "myemail@gmail.com") "email" = true
    ∧ getDataRows [["myemail@gmail.com", "active", "sub_1"]] = []
    ∧ checkPaidUserEmail "myemail@gmail.com"
        [["myemail@gmail.com", "active", "sub_1"]] = ⟨false, none⟩ :=
  ⟨by decide, by decide, by decide, by decide⟩

/-- C10: with an empty or missing status — the string produced by the webhook
coercion for a customer.subscription.updated event without a status field —
updateStatusBySubscriptionId returns before any store read, performs no
write, and leaves the rows unchanged. -/
theorem update_status_empty_status_noop (rows : List (List String))
    (subscriptionId : String) (st : Option String)
    (hst : st = none ∨ st = some "") :
    updateStatusEffect rows subscriptionId (subscriptionEventStatus st) = ⟨0, []⟩
    ∧ updateStatusBySubscriptionId rows subscriptionId
        (subscriptionEventStatus st) = rows := by
  have h : subscriptionEventStatus st = "" := by
    cases hst with
    | inl h1 => rw [h1]; rfl
    | inr h1 => rw [h1]; rfl
  rw [h]
  constructor
  · simp [updateStatusEffect]
  · simp [updateStatusBySubscriptionId, updateStatusEffect]

/-- Witness for C10 at a concrete input. -/
theorem update_status_empty_status_noop_witness :
    updateStatusEffect [["a@b.com", "active", "s1"]] "s1"
        (subscriptionEventStatus (some "")) = ⟨0, []⟩
    ∧ updateStatusBySubscriptionId [["a@b.com", "active", "s1"]] "s1"
        (subscriptionEventStatus (some "")) = [["a@b.com", "active", "s1"]] :=
  update_status_empty_status_noop [["a@b.com", "active", "s1"]] "s1"
    (some "") (Or.inr rfl)

/-- C6: when the first cell of the first row contains "email" case-insensitively,
that row is excluded from email and subscription-id matching — the query and
both update scans run over the remaining rows only — and the 1-based sheet
row written for data row i is i + 2 (offset by one against a headerless
table, whose written row would be i + 1). -/
theorem header_row_excluded_and_offset (r0 : List String)
    (rest : List (List String))
    (hmarker : jsIncludes (jsToLower (r0.getD 0 "")) "email" = true) :
    getDataRows (r0 :: rest) = rest
    ∧ (∀ email, checkPaidUserEmail email (r0 :: rest)
        = if jsToLower (jsTrim email) = "" then ⟨false, none⟩
          else checkRows (jsToLower (jsTrim email)) rest)
    ∧ (∀ email status subscriptionId i,
        findEmailIdx (jsToLower (jsTrim email)) rest = some i →
        upsertEffect (r0 :: rest) email status subscriptionId
          = ⟨1, [SheetWrite.updateBC (i + 2) status
              (if subscriptionId = "" then "" else jsTrim subscriptionId)]⟩)
    ∧ (∀ subscriptionId status i, subscriptionId ≠ "" → status ≠ "" →
        findSubIdx (jsTrim subscriptionId) rest = some i →
        updateStatusEffect (r0 :: rest) subscriptionId status
          = ⟨1, [SheetWrite.updateB (i + 2) status]⟩) := by
  have hgd : getDataRows (r0 :: rest) = rest :=
    getDataRows_cons_header r0 rest hmarker
  have hofs : (r0 :: rest).length - rest.length = 1 := by
    simp only [List.length_cons]
    omega
  refine ⟨hgd, ?_, ?_, ?_⟩
  · intro email
    simp only [checkPaidUserEmail, hgd]
  · intro email status subscriptionId i hfind
    simp only [upsertEffect, hgd, hfind]
    have hidx : (r0 :: rest).length - rest.length + i + 1 = i + 2 := by omega
    rw [hidx]
  · intro subscriptionId status i hsub hst hfind
    simp only [updateStatusEffect, hgd, hfind]
    rw [if_neg (by simp [hsub, hst])]
    have hidx : (r0 :: rest).length - rest.length + i + 1 = i + 2 := by omega
    rw [hidx]

/-- Witness for C6 at a concrete input with the literal header "Email". -/
theorem header_row_excluded_and_offset_witness :
    getDataRows (["Email", "Status", "SubId"] :: [["a@b.com", "past_due", "s1"]])
      = [["a@b.com", "past_due", "s1"]]
    ∧ upsertEffect (["Email", "Status", "SubId"]
          :: [["a@b.com", "past_due", "s1"]]) "a@b.com" "active" "s9"
      = ⟨1, [SheetWrite.updateBC 2 "active" "s9"]⟩
    ∧ updateStatusEffect (["Email", "Status", "SubId"]
          :: [["a@b.com", "past_due", "s1"]]) "s1" "canceled"
      = ⟨1, [SheetWrite.updateB 2 "canceled"]⟩ := by
  have h := header_row_excluded_and_offset ["Email", "Status", "SubId"]
    [["a@b.com", "past_due", "s1"]] (by decide)
  exact ⟨h.1,
    h.2.2.1 "a@b.com" "active" "s9" 0 (by decide),
    h.2.2.2 "s1" "canceled" 0 (by decide) (by decide) (by decide)⟩

/-- C9: when several data rows normalize to the same email, upsertPaidUser
rewrites only the first matching data row — every other absolute row, the
later duplicates included, is unchanged — and checkPaidUserEmail reports the
status of the first matching row. -/
theorem duplicate_rows_first_match_wins (rows : List (List String))
    (email status subscriptionId : String) (i j : Nat)
    (hvalid : jsToLower (jsTrim email) ≠ "")
    (hfind : findEmailIdx (jsToLower (jsTrim email)) (getDataRows rows) = some i)
    (hij : i < j) (hj : j < (getDataRows rows).length)
    (hdup : jsToLower (colCell ((getDataRows rows).getD j []) 0)
      = jsToLower (jsTrim email)) :
    upsertPaidUser rows email status subscriptionId
      = modifyRow rows (rows.length - (getDataRows rows).length + i)
          (updBC status
            (if subscriptionId = "" then "" else jsTrim subscriptionId))
    ∧ (∀ k, k ≠ rows.length - (getDataRows rows).length + i →
        (upsertPaidUser rows email status subscriptionId).getD k []
          = rows.getD k [])
    ∧ checkPaidUserEmail email rows
      = rowCheckResult ((getDataRows rows).getD i []) := by
  refine ⟨upsertPaidUser_found rows email status subscriptionId i hfind,
    ?_, ?_⟩
  · intro k hk
    rw [upsertPaidUser_found rows email status subscriptionId i hfind]
    exact modifyRow_getD_ne rows _ k _ hk
  · rw [checkPaidUserEmail_of_ne _ _ hvalid]
    exact checkRows_of_findEmailIdx_some _ _ i hfind

/-- Witness for C9 at a concrete input with two duplicate rows. -/
theorem duplicate_rows_first_match_wins_witness :
    upsertPaidUser [["a@b.com", "past_due", "s1"], [" A@B.COM ", "canceled", "s2"]]
        "a@b.com" "active" "s9"
      = modifyRow [["a@b.com", "past_due", "s1"], [" A@B.COM ", "canceled", "s2"]]
          0 (updBC "active" (jsTrim "s9"))
    ∧ (∀ k, k ≠ 0 →
        (upsertPaidUser
            [["a@b.com", "past_due", "s1"], [" A@B.COM ", "canceled", "s2"]]
            "a@b.com" "active" "s9").getD k []
          = [["a@b.com", "past_due", "s1"],
              [" A@B.COM ", "canceled", "s2"]].getD k [])
    ∧ checkPaidUserEmail "a@b.com"
        [["a@b.com", "past_due", "s1"], [" A@B.COM ", "canceled", "s2"]]
      = rowCheckResult ["a@b.com", "past_due", "s1"] :=
  duplicate_rows_first_match_wins
    [["a@b.com", "past_due", "s1"], [" A@B.COM ", "canceled", "s2"]]
    "a@b.com" "active" "s9" 0 1
    (by decide) (by decide) (by decide) (by decide) (by decide)

/-! Lemmas about email resolution with no configured custom-field key. -/

theorem scanFieldsBoth_unconfigured : ∀ fields : List CustomField,
    scanFieldsBoth "" fields = firstFieldCandidate fields := by
  intro fields
  induction fields with
  | nil => rfl
  | cons f rest ih =>
    show (if f.text.getD "" ≠ ""
            ∧ (("" : String) = "" ∨ jsTrim (f.key.getD "") = "")
            ∧ jsTrim (f.text.getD "") ≠ ""
          then some (jsTrim (f.text.getD ""))
          else if f.dropdown.getD "" ≠ ""
            ∧ (("" : String) = "" ∨ jsTrim (f.key.getD "") = "")
            ∧ jsTrim (f.dropdown.getD "") ≠ ""
          then some (jsTrim (f.dropdown.getD ""))
          else scanFieldsBoth "" rest)
        = (if jsTrim (f.text.getD "") ≠ ""
           then some (jsTrim (f.text.getD ""))
           else if f.dropdown.getD "" ≠ "" ∧ jsTrim (f.dropdown.getD "") ≠ ""
           then some (jsTrim (f.dropdown.getD ""))
           else firstFieldCandidate rest)
    by_cases ht : jsTrim (f.text.getD "") = ""
    · rw [if_neg (show ¬(f.text.getD "" ≠ ""
            ∧ (("" : String) = "" ∨ jsTrim (f.key.getD "") = "")
            ∧ jsTrim (f.text.getD "") ≠ "") from fun hcon => hcon.2.2 ht),
        if_neg (show ¬(jsTrim (f.text.getD "") ≠ "") from fun hcon => hcon ht)]
      by_cases hd : (f.dropdown.getD "") ≠ "" ∧ jsTrim (f.dropdown.getD "") ≠ ""
      · rw [if_pos (show f.dropdown.getD "" ≠ ""
              ∧ (("" : String) = "" ∨ jsTrim (f.key.getD "") = "")
              ∧ jsTrim (f.dropdown.getD "") ≠ ""
              from ⟨hd.1, Or.inl rfl, hd.2⟩),
          if_pos (show f.dropdown.getD "" ≠ ""
              ∧ jsTrim (f.dropdown.getD "") ≠ "" from hd)]
      · rw [if_neg (show ¬(f.dropdown.getD "" ≠ ""
              ∧ (("" : String) = "" ∨ jsTrim (f.key.getD "") = "")
              ∧ jsTrim (f.dropdown.getD "") ≠ "")
              from fun hcon => hd ⟨hcon.1, hcon.2.2⟩),
          if_neg (show ¬(f.dropdown.getD "" ≠ ""
              ∧ jsTrim (f.dropdown.getD "") ≠ "") from hd)]
        exact ih
    · have htv : f.text.getD "" ≠ "" := by
        intro h0
        apply ht
        rw [h0]
        rfl
      rw [if_pos (show f.text.getD "" ≠ ""
            ∧ (("" : String) = "" ∨ jsTrim (f.key.getD "") = "")
            ∧ jsTrim (f.text.getD "") ≠ "" from ⟨htv, Or.inl rfl, ht⟩),
        if_pos (show jsTrim (f.text.getD "") ≠ "" from ht)]

theorem scanFieldsText_none_of_unconfigured_none : ∀ fields : List CustomField,
    scanFieldsBoth "" fields = none → scanFieldsText fields = none := by
  intro fields
  induction fields with
  | nil => intro _; rfl
  | cons f rest ih =>
    intro h
    have h2 : (if f.text.getD "" ≠ ""
            ∧ (("" : String) = "" ∨ jsTrim (f.key.getD "") = "")
            ∧ jsTrim (f.text.getD "") ≠ ""
          then some (jsTrim (f.text.getD ""))
          else if f.dropdown.getD "" ≠ ""
            ∧ (("" : String) = "" ∨ jsTrim (f.key.getD "") = "")
            ∧ jsTrim (f.dropdown.getD "") ≠ ""
          then some (jsTrim (f.dropdown.getD ""))
          else scanFieldsBoth "" rest) = none := h
    show (if f.text.getD "" ≠ "" ∧ jsTrim (f.text.getD "") ≠ ""
          then some (jsTrim (f.text.getD ""))
          else scanFieldsText rest) = none
    by_cases ht : f.text.getD "" ≠ "" ∧ jsTrim (f.text.getD "") ≠ ""
    · rw [if_pos (show f.text.getD "" ≠ ""
            ∧ (("" : String) = "" ∨ jsTrim (f.key.getD "") = "")
            ∧ jsTrim (f.text.getD "") ≠ ""
            from ⟨ht.1, Or.inl rfl, ht.2⟩)] at h2
      exact Option.noConfusion h2
    · rw [if_neg ht]
      rw [if_neg (show ¬(f.text.getD "" ≠ ""
            ∧ (("" : String) = "" ∨ jsTrim (f.key.getD "") = "")
            ∧ jsTrim (f.text.getD "") ≠ "")
            from fun hcon => ht ⟨hcon.1, hcon.2.2⟩)] at h2
      by_cases hd : f.dropdown.getD "" ≠ ""
          ∧ (("" : String) = "" ∨ jsTrim (f.key.getD "") = "")
          ∧ jsTrim (f.dropdown.getD "") ≠ ""
      · rw [if_pos hd] at h2
        exact Option.noConfusion h2
      · rw [if_neg hd] at h2
        exact ih h2

/-- C5 (amended): with no configured custom-field key, getGoogleEmailFromSession
returns the trimmed value of the first custom field whose text value — or,
failing that within the same field, whose dropdown value — is present and
trims to a non-empty string; only when no custom field yields a candidate does
it fall back to customer_email, then the nested customer-details email, then
the alternate customer-details email field, and otherwise reports no email. -/
theorem email_resolution_unconfigured (s : Session) :
    getGoogleEmailFromSession "" s = emailResolutionAmendedC5 s := by
  cases hcf : s.custom_fields with
  | none => simp [getGoogleEmailFromSession, emailResolutionAmendedC5, hcf,
      firstFieldCandidate]
  | some fields =>
    cases fields with
    | nil => simp [getGoogleEmailFromSession, emailResolutionAmendedC5, hcf,
        firstFieldCandidate]
    | cons f rest =>
      cases hv : firstFieldCandidate (f :: rest) with
      | some v =>
        simp [getGoogleEmailFromSession, emailResolutionAmendedC5, hcf,
          scanFieldsBoth_unconfigured, hv]
      | none =>
        have htext : scanFieldsText (f :: rest) = none :=
          scanFieldsText_none_of_unconfigured_none _
            (by rw [scanFieldsBoth_unconfigured]; exact hv)
        simp [getGoogleEmailFromSession, emailResolutionAmendedC5, hcf,
          scanFieldsBoth_unconfigured, hv, htext]

/-- C5 as stated fails: with no configured key, a session whose first custom
field carries only the dropdown value "pick-me" and whose second field
carries the text value "a@b.com" resolves to the dropdown value, while the
claim requires the first text custom field to win before any non-text source. -/
theorem email_resolution_cex :
    getGoogleEmailFromSession ""
        ⟨some [⟨none, none, some "pick-me"⟩, ⟨none, some "a@b.com", none⟩],
          none, none, none⟩
      = some "pick-me"
    ∧ emailResolutionClaimC5
        ⟨some [⟨none, none, some "pick-me"⟩, ⟨none, some "a@b.com", none⟩],
          none, none, none⟩
      = some "a@b.com" :=
  ⟨by decide, by decide⟩

end StripeToSheet
